import Mathlib

/-!
Shallow embedding of `crates/rpc/rpc/src/eth/api/transactions.rs` (reth's
eth transactions RPC core) and proofs about it.

Modelling conventions:
* machine integers (`u64`, `U256`, ...) are `Nat`; `u64` subtraction is the
  same truncated subtraction the checked source expression computes on
  well-formed inputs, and saturating narrowing is made explicit;
* cryptographic primitives (signer recovery, contract-address derivation)
  are kept symbolic: a signed transaction carries the result of
  `recover_signer_unchecked` as an `Option Address`, and `Address.create`
  builds a syntactically distinct address from sender and nonce;
* external collaborators (state/storage provider, environment cache,
  pending-block provider, transaction pool, signers, the EVM itself) are
  fields of explicit records, so that the control flow of the embedded
  functions is exactly the control flow of the source;
* fallible Rust functions returning `EthResult<T>` become
  `Except EthApiError T`.
-/

namespace RethTx

/-- Addresses are kept symbolic: `base` addresses are externally given,
`created` addresses are the output of the sender+nonce contract-address
derivation (`Address::create` in the source, a collaborator primitive). -/
inductive Address where
  | base (n : Nat) : Address
  | created (sender : Address) (nonce : Nat) : Address
deriving DecidableEq, Repr

/-- The contract address derivation `from.create(nonce)` used by the
receipt builder; injective by construction, as the real keccak-based
derivation is assumed to be. -/
def Address.create (sender : Address) (nonce : Nat) : Address :=
  Address.created sender nonce

/-- Block / transaction hashes (`B256`). -/
abbrev B256 := Nat

/-- A primitive log as stored in a `Receipt` (`reth_primitives::Log`). -/
structure PrimLog where
  address : Address
  topics : List Nat
  data : Nat
deriving DecidableEq, Repr

/-- Execution receipt of a mined transaction (`reth_primitives::Receipt`). -/
structure Receipt where
  success : Bool
  cumulative_gas_used : Nat
  logs : List PrimLog
deriving DecidableEq, Repr

/-- Transaction kind (`reth_primitives::TransactionKind`). -/
inductive TransactionKind where
  | Create : TransactionKind
  | Call (addr : Address) : TransactionKind
deriving DecidableEq, Repr

/-- A signed transaction (`reth_primitives::TransactionSigned`), carrying
the data the embedded functions read from it.  `signer` is the result of
signature recovery (`recover_signer_unchecked` /
`into_ecrecovered_unchecked`): `none` models a transaction whose sender
cannot be recovered.  `effective_gas_price` models the out-of-source
method of the same name, as a function of the block base fee. -/
structure TransactionSigned where
  hash : B256
  kind : TransactionKind
  nonce : Nat
  tx_type : Nat
  signer : Option Address
  effective_gas_price : Option Nat → Nat

/-- A recovered transaction (`TransactionSignedEcRecovered`). -/
structure TransactionSignedEcRecovered where
  tx : TransactionSigned
  signer : Address

/-- Positional metadata of a mined transaction
(`reth_primitives::TransactionMeta`). -/
structure TransactionMeta where
  tx_hash : B256
  index : Nat
  block_hash : B256
  block_number : Nat
  base_fee : Option Nat
deriving Repr

/-- Error kinds of the core (`EthApiError` with the embedded `SignError`),
restricted to the variants the embedded code can produce. -/
inductive SignError where
  | noAccount : SignError
  | couldNotSign : SignError
deriving DecidableEq, Repr

inductive EthApiError where
  | unknownBlockNumber : EthApiError
  | invalidTransactionSignature : EthApiError
  | conflictingFeeFieldsInRequest : EthApiError
  | internalBlockingTaskError : EthApiError
  | internalEthError : EthApiError
  | poolError (code : Nat) : EthApiError
  | signError (e : SignError) : EthApiError
deriving DecidableEq, Repr

/-- A wire-level log (`reth_rpc_types::Log`). -/
structure RpcLog where
  address : Address
  topics : List Nat
  data : Nat
  block_hash : Option B256
  block_number : Option Nat
  transaction_hash : Option B256
  transaction_index : Option Nat
  log_index : Option Nat
  removed : Bool
deriving DecidableEq, Repr

/-- The wire-level transaction receipt (`reth_rpc_types::TransactionReceipt`),
restricted to the fields the embedded builder computes (fields filled by
out-of-source collaborators — logs bloom, blob-gas price — are omitted). -/
structure TransactionReceipt where
  transaction_hash : Option B256
  transaction_index : Nat
  block_hash : Option B256
  block_number : Option Nat
  from_ : Address
  to_ : Option Address
  cumulative_gas_used : Nat
  gas_used : Option Nat
  contract_address : Option Address
  logs : List RpcLog
  effective_gas_price : Nat
  transaction_type : Nat
  state_root : Option Nat
  status_code : Option Nat
deriving DecidableEq, Repr

/-- Embedding of `build_transaction_receipt_with_block_receipts`
(source lines 1170-1263, non-optimism configuration). -/
def build_transaction_receipt_with_block_receipts
    (transaction : TransactionSigned) (meta : TransactionMeta)
    (receipt : Receipt) (all_receipts : List Receipt) :
    Except EthApiError TransactionReceipt :=
  match transaction.signer with
  | none => .error .invalidTransactionSignature
  | some from_ =>
    -- get the previous transaction cumulative gas used
    let gas_used :=
      if meta.index = 0 then
        receipt.cumulative_gas_used
      else
        let prev_tx_idx := meta.index - 1
        match all_receipts.get? prev_tx_idx with
        | some prev_receipt =>
            receipt.cumulative_gas_used - prev_receipt.cumulative_gas_used
        | none => 0
    let res_receipt : TransactionReceipt :=
      { transaction_hash := some meta.tx_hash
        transaction_index := meta.index
        block_hash := some meta.block_hash
        block_number := some meta.block_number
        from_ := from_
        to_ := none
        cumulative_gas_used := receipt.cumulative_gas_used
        gas_used := some gas_used
        contract_address := none
        logs := []
        effective_gas_price := transaction.effective_gas_price meta.base_fee
        transaction_type := transaction.tx_type
        state_root := none
        status_code := if receipt.success then some 1 else some 0 }
    let res_receipt :=
      match transaction.kind with
      | .Create =>
          { res_receipt with
              contract_address := some (from_.create transaction.nonce) }
      | .Call addr =>
          { res_receipt with to_ := some addr }
    -- get number of logs in the block before this transaction
    let num_logs :=
      (all_receipts.take meta.index).foldl (fun acc r => acc + r.logs.length) 0
    let rpclogs :=
      receipt.logs.enum.map fun p =>
        ({ address := p.2.address
           topics := p.2.topics
           data := p.2.data
           block_hash := some meta.block_hash
           block_number := some meta.block_number
           transaction_hash := some meta.tx_hash
           transaction_index := some meta.index
           log_index := some (num_logs + p.1)
           removed := false } : RpcLog)
    .ok { res_receipt with logs := rpclogs }

/-- Block number or tag (`reth_primitives::BlockNumberOrTag`). -/
inductive BlockNumberOrTag where
  | latest : BlockNumberOrTag
  | finalized : BlockNumberOrTag
  | safe : BlockNumberOrTag
  | earliest : BlockNumberOrTag
  | pending : BlockNumberOrTag
  | number (n : Nat) : BlockNumberOrTag
deriving DecidableEq, Repr

/-- Block reference (`reth_primitives::BlockId`). -/
inductive BlockId where
  | number (tag : BlockNumberOrTag) : BlockId
  | hash (block_hash : B256) (require_canonical : Option Bool) : BlockId
deriving DecidableEq, Repr

def BlockId.is_pending : BlockId → Bool
  | .number .pending => true
  | _ => false

def BlockId.as_block_hash : BlockId → Option B256
  | .hash h _ => some h
  | _ => none

/-- Chain configuration part of the execution environment
(`revm_primitives::CfgEnv`, restricted to what the embedded code reads). -/
structure CfgEnv where
  chain_id : Nat
  spec_id : Nat
deriving DecidableEq, Repr

/-- Per-block part of the execution environment (`revm_primitives::BlockEnv`,
restricted to what the embedded code reads; `number` and `basefee` are the
`U256` fields). -/
structure BlockEnv where
  number : Nat
  coinbase : Address
  timestamp : Nat
  gas_limit : Nat
  basefee : Nat
deriving DecidableEq, Repr

/-- Saturating narrowing `U256 -> u64` (`saturating_to::<u64>()`). -/
def saturatingToU64 (n : Nat) : Nat := min n (2 ^ 64 - 1)

/-- Modelled from the spec: the origin of a pending-block environment.
`PendingBlockEnv` / `PendingBlockEnvOrigin` live in
`eth/api/pending_block.rs`, which is outside the reviewed source.  The
spec states that the pending reference resolves to a synthetic
environment built from the locally-assembled pending block and "never
names a persisted block hash", and the source doc comment on `evm_env_at`
says the pending case returns the "Pending" tag; so the origin carries
the pending-block content symbolically and its `state_block_id` is the
pending tag. -/
inductive PendingBlockEnvOrigin where
  | actualPending (pendingBlockContent : Nat) : PendingBlockEnvOrigin
deriving DecidableEq, Repr

/-- Modelled from the spec: the resolved identity of a pending environment
is the pending tag, never a concrete block hash. -/
def PendingBlockEnvOrigin.state_block_id (_ : PendingBlockEnvOrigin) : BlockId :=
  BlockId.number BlockNumberOrTag.pending

/-- A recovered pooled transaction, after `to_recovered_transaction`. -/
abbrev PooledRecovered := TransactionSignedEcRecovered

/-- A sealed block together with recovered senders
(`reth_primitives::SealedBlockWithSenders`); `body` pairs each body
transaction with its recovered sender, as `into_transactions_ecrecovered`
yields them. -/
structure SealedBlockWithSenders where
  hash : B256
  parent_hash : B256
  number : Nat
  base_fee_per_gas : Option Nat
  body : List TransactionSignedEcRecovered

/-- The external collaborators of the `EthApi` instance (§6 of the spec):
provider, environment cache, pending-block provider, pool and state
snapshots.  `state_at` returns an identifier of the read-only state
snapshot the overlay is rooted at. -/
structure Node where
  /-- `provider().block_hash_for_id(at)` (resolves a reference to a
  canonical hash; `none` when the block does not exist). -/
  block_hash_for_id : BlockId → Option B256
  /-- `cache().get_evm_env(block_hash)`: memoized environment, keyed by
  block hash. -/
  cache_get_evm_env : B256 → CfgEnv × BlockEnv
  /-- `pending_block_env_and_cfg()` (pending-block provider). -/
  pending_block_env_and_cfg :
    Except EthApiError (CfgEnv × BlockEnv × PendingBlockEnvOrigin)
  /-- `block_with_senders(id)`: the full block, `none` if absent. -/
  block_with_senders_of : BlockId → Option SealedBlockWithSenders
  /-- `state_at(at)`: read-only state snapshot for a resolved identity. -/
  state_at : BlockId → Except EthApiError Nat
  /-- `provider().transaction_by_hash_with_meta(hash)`: historical
  (mined) transaction lookup. -/
  transaction_by_hash_with_meta :
    B256 → Option (TransactionSigned × TransactionMeta)
  /-- `pool().get(hash)`, already composed with
  `to_recovered_transaction`. -/
  pool_get : B256 → Option PooledRecovered

/-- Embedding of `evm_env_at` (source lines 340-353).  Besides the
returned `(CfgEnv, BlockEnv, BlockId)` triple it records the list of keys
looked up in the persisted-block environment cache during resolution, so
that cache isolation is expressible. -/
def evm_env_at (n : Node) (at_ : BlockId) :
    Except EthApiError (CfgEnv × BlockEnv × BlockId) × List B256 :=
  if at_.is_pending then
    match n.pending_block_env_and_cfg with
    | .ok (cfg, block_env, origin) =>
        (.ok (cfg, block_env, origin.state_block_id), [])
    | .error e => (.error e, [])
  else
    -- use cached values if there is no pending block
    match n.block_hash_for_id at_ with
    | none => (.error .unknownBlockNumber, [])
    | some block_hash =>
        let (cfg, env) := n.cache_get_evm_env block_hash
        (.ok (cfg, env, BlockId.hash block_hash none), [block_hash])

/-- Where a transaction was fetched from (`TransactionSource`, source
lines 1077-1097). -/
inductive TransactionSource where
  | pool (tx : TransactionSignedEcRecovered) : TransactionSource
  | block (transaction : TransactionSignedEcRecovered) (index : Nat)
      (block_hash : B256) (block_number : Nat) (base_fee : Option Nat) :
      TransactionSource

/-- Embedding of `transaction_by_hash` (source lines 390-427).  The right
component records whether the pending pool was consulted. -/
def transaction_by_hash (n : Node) (hash : B256) :
    Except EthApiError (Option TransactionSource) × Bool :=
  -- try to find the transaction on disk
  match n.transaction_by_hash_with_meta hash with
  | some (tx, meta) =>
      -- into_ecrecovered_unchecked
      match tx.signer with
      | none => (.error .invalidTransactionSignature, false)
      | some s =>
          (.ok (some (TransactionSource.block ⟨tx, s⟩ meta.index
            meta.block_hash meta.block_number meta.base_fee)), false)
  | none =>
      -- tx not found on disk, check pool
      match n.pool_get hash with
      | some tx => (.ok (some (TransactionSource.pool tx)), true)
      | none => (.ok none, true)

/-- A transaction's state diff (`revm_primitives::State`): the pending
account/storage mutations its execution produced, kept symbolic. -/
abbrev StateDiff := List (Address × Nat)

/-- The state overlay (`CacheDB<StateProviderDatabase<StateProviderBox>>`):
a read-only base snapshot (identified by the provider id `state_at`
returned) plus the ordered sequence of committed transaction diffs. -/
structure CacheDB where
  provider : Nat
  committed : List StateDiff
deriving DecidableEq, Repr

/-- `DatabaseCommit::commit`: merge a transaction's diff into the write
layer.  The order of commits is observable, never the base. -/
def CacheDB.commit (db : CacheDB) (s : StateDiff) : CacheDB :=
  { db with committed := db.committed ++ [s] }

/-- Outcome of executing one transaction
(`revm_primitives::ExecutionResult`), kept symbolic. -/
structure ExecutionResult where
  success : Bool
  gasUsed : Nat
  output : Nat
deriving DecidableEq, Repr

/-- `revm_primitives::ResultAndState`. -/
structure ResultAndState where
  result : ExecutionResult
  state : StateDiff
deriving DecidableEq, Repr

/-- Tracer configuration (`TracingInspectorConfig`), symbolic. -/
abbrev TracingInspectorConfig := Nat

/-- The trace data a `TracingInspector` accumulates, symbolic. -/
abbrev Trace := Nat

/-- The transaction part of an execution environment (`TxEnv`); built by
the out-of-source `tx_env_with_recovered`, so it is kept as the recovered
transaction itself. -/
structure TxEnv where
  tx : TransactionSignedEcRecovered

def tx_env_with_recovered (tx : TransactionSignedEcRecovered) : TxEnv :=
  { tx := tx }

/-- A full execution environment (`revm_primitives::Env`). -/
structure Env where
  cfg : CfgEnv
  block : BlockEnv
  tx : TxEnv

/-- The deterministic external EVM: `run` is `inspect`'s result and state
for a given overlay and environment, `traceOf` is the trace the fresh
`TracingInspector` captures during that same execution. -/
structure EvmSem where
  run : CacheDB → Env → ResultAndState
  traceOf : TracingInspectorConfig → CacheDB → Env → Trace

/-- Positional metadata handed to the per-transaction observer
(`reth_rpc_types::TransactionInfo`). -/
structure TransactionInfo where
  hash : Option B256
  index : Option Nat
  block_hash : Option B256
  block_number : Option Nat
  base_fee : Option Nat
deriving DecidableEq, Repr

/-- The `while let` loop of `trace_block_until` (source lines 841-856):
execute each prepared transaction against the current overlay, invoke the
observer with the result, the diff and the pre-commit overlay, and commit
the diff before the next transaction whenever one remains (`peek`). -/
def traceLoopUntil {R : Type} (sem : EvmSem) (cfg : CfgEnv)
    (block_env : BlockEnv) (config : TracingInspectorConfig)
    (f : TransactionInfo → Trace → ExecutionResult → StateDiff → CacheDB →
      Except EthApiError R) :
    List (TransactionInfo × TxEnv) → CacheDB → Except EthApiError (List R)
  | [], _ => .ok []
  | (tx_info, tx) :: rest, db =>
      let env : Env := { cfg := cfg, block := block_env, tx := tx }
      let res := sem.run db env
      match f tx_info (sem.traceOf config db env) res.result res.state db with
      | .error e => .error e
      | .ok r =>
          -- need to apply the state changes of this transaction before
          -- executing the next transaction (only when one remains: peek)
          let db' := if rest.isEmpty then db else db.commit res.state
          match traceLoopUntil sem cfg block_env config f rest db' with
          | .error e => .error e
          | .ok rs => .ok (r :: rs)

/-- The upfront transaction preparation of `trace_block_until` (source
lines 815-835): the first `min(limit, block length)` transactions in
position order, each tagged with its positional metadata and converted to
a transaction environment. -/
def preparedTransactions (block : SealedBlockWithSenders)
    (block_env : BlockEnv) (highest_index : Option Nat) :
    List (TransactionInfo × TxEnv) :=
  let block_number := saturatingToU64 block_env.number
  let base_fee := saturatingToU64 block_env.basefee
  let max_transactions :=
    (highest_index.map (fun highest => highest)).getD block.body.length
  (block.body.take max_transactions).enum.map fun p =>
    (({ hash := some p.2.tx.hash
        index := some p.1
        block_hash := some block.hash
        block_number := some block_number
        base_fee := some base_fee } : TransactionInfo),
     tx_env_with_recovered p.2)

/-- Embedding of `trace_block_until` (source lines 781-862): resolve the
environment and fetch the block (the `try_join`: both must succeed),
prepare the first `min(limit, length)` transactions with their positional
metadata, root the overlay at the parent block's state, and run the
sequential replay loop. -/
def trace_block_until {R : Type} (n : Node) (sem : EvmSem)
    (block_id : BlockId) (highest_index : Option Nat)
    (config : TracingInspectorConfig)
    (f : TransactionInfo → Trace → ExecutionResult → StateDiff → CacheDB →
      Except EthApiError R) :
    Except EthApiError (Option (List R)) :=
  match (evm_env_at n block_id).1 with
  | .error e => .error e
  | .ok (cfg, block_env, _) =>
      match n.block_with_senders_of block_id with
      | none => .ok none
      | some block =>
          -- we need the state of the parent block: we replay this block
          -- on top of its parent block's state
          match n.state_at (BlockId.hash block.parent_hash none) with
          | .error e => .error e
          | .ok sp =>
              let db : CacheDB := { provider := sp, committed := [] }
              match traceLoopUntil sem cfg block_env config f
                  (preparedTransactions block block_env highest_index) db with
              | .error e => .error e
              | .ok results => .ok (some results)

/-- Reference execution, following the spec's words (§4.5 step 5 and §8,
"executing T0..Ti-1 in position order into one shared state overlay
(committing each transaction's state diff before the next executes)"):
the overlay obtained by the strict left fold of execute-then-commit. -/
def specLeftFoldOverlay (sem : EvmSem) (cfg : CfgEnv) (block_env : BlockEnv)
    (db : CacheDB) : List TxEnv → CacheDB
  | [] => db
  | tx :: rest =>
      specLeftFoldOverlay sem cfg block_env
        (db.commit (sem.run db { cfg := cfg, block := block_env, tx := tx }).state)
        rest

/-- Reference per-transaction result, following the spec's words: execute
Ti against the overlay produced by left-folding T0..Ti-1. -/
def specRefResult (sem : EvmSem) (cfg : CfgEnv) (block_env : BlockEnv)
    (db0 : CacheDB) (txs : List TxEnv) (i : Nat) : Option ResultAndState :=
  (txs.get? i).map fun tx =>
    sem.run (specLeftFoldOverlay sem cfg block_env db0 (txs.take i))
      { cfg := cfg, block := block_env, tx := tx }

/-- The pure unfolding of `traceLoopUntil` for an observer that cannot
fail; used to state what the loop produces. -/
def pureTraceLoop {R : Type} (sem : EvmSem) (cfg : CfgEnv)
    (block_env : BlockEnv) (config : TracingInspectorConfig)
    (g : TransactionInfo → Trace → ExecutionResult → StateDiff → CacheDB → R) :
    List (TransactionInfo × TxEnv) → CacheDB → List R
  | [], _ => []
  | (tx_info, tx) :: rest, db =>
      let env : Env := { cfg := cfg, block := block_env, tx := tx }
      let res := sem.run db env
      let db' := if rest.isEmpty then db else db.commit res.state
      g tx_info (sem.traceOf config db env) res.result res.state db ::
        pureTraceLoop sem cfg block_env config g rest db'

/-- The `eth_sendTransaction` request (`reth_rpc_types::TransactionRequest`,
restricted to the fields `send_transaction` reads). -/
structure TransactionRequest where
  from_ : Option Address
  to_ : Option Address
  gas_price : Option Nat
  max_fee_per_gas : Option Nat
  gas : Option Nat
  value : Option Nat
  input : Nat
  nonce : Option Nat
  access_list : Option Nat
deriving DecidableEq, Repr

/-- A call request (`reth_rpc_types::CallRequest`), with the fields
`send_transaction` fills for its gas estimation. -/
structure CallRequest where
  from_ : Option Address
  to_ : Option Address
  gas : Option Nat
  gas_price : Option Nat
  max_fee_per_gas : Option Nat
  value : Option Nat
  input : Nat
  nonce : Option Nat
  chain_id : Option Nat
  access_list : Option Nat
  max_priority_fee_per_gas : Option Nat
  transaction_type : Option Nat
  blob_versioned_hashes : Option (List Nat)
  max_fee_per_blob_gas : Option Nat
deriving DecidableEq, Repr

/-- Common fields of a typed transaction request; `payload` stands for the
remaining variant-specific content that `send_transaction` leaves
untouched. -/
structure TypedTxFields where
  chain_id : Option Nat
  gas_limit : Nat
  gas_price : Nat
  max_fee_per_gas : Nat
  payload : Nat
deriving DecidableEq, Repr

/-- `reth_rpc_types::TypedTransactionRequest`. -/
inductive TypedTransactionRequest where
  | legacy (m : TypedTxFields) : TypedTransactionRequest
  | eip2930 (m : TypedTxFields) : TypedTransactionRequest
  | eip1559 (m : TypedTxFields) : TypedTransactionRequest
  | eip4844 (m : TypedTxFields) : TypedTransactionRequest
deriving DecidableEq, Repr

/-- A registered signer (`EthSigner`). -/
structure Signer where
  is_signer_for : Address → Bool
  sign_transaction :
    TypedTransactionRequest → Address → Except SignError TransactionSigned

/-- Embedding of `sign_request` (source lines 1035-1049): first registered
signer claiming the sender signs; with no matching signer the function
falls through to `Err(EthApiError::InvalidTransactionSignature)`. -/
def sign_request (signers : List Signer) (from_ : Address)
    (request : TypedTransactionRequest) : Except EthApiError TransactionSigned :=
  match signers with
  | [] => .error .invalidTransactionSignature
  | signer :: rest =>
      if signer.is_signer_for from_ then
        match signer.sign_transaction request from_ with
        | .ok tx => .ok tx
        | .error e => .error (.signError e)
      else
        sign_request rest from_ request

/-- Out-of-source collaborators used by `send_transaction`:
`get_transaction_count`, `chain_id`, `estimate_gas_at` (defined in the
call module), `into_typed_request` (defined in `reth_rpc_types`), and the
pool's `add_transaction`.  `PoolTransaction::from_recovered_pooled_transaction`
is modelled as the identity on recovered transactions. -/
structure SendWorld where
  get_transaction_count : Address → Option BlockId → Except EthApiError Nat
  chain_id : Nat
  estimate_gas_at : CallRequest → BlockId → Except EthApiError Nat
  into_typed_request : TransactionRequest → Option TypedTransactionRequest
  pool_add_transaction : TransactionSignedEcRecovered → Except EthApiError B256

/-- Embedding of `send_transaction` (source lines 513-600).  The right
component records every transaction submitted to the pool, so absence of
submission is expressible. -/
def send_transaction (w : SendWorld) (signers : List Signer)
    (request : TransactionRequest) :
    Except EthApiError B256 × List TransactionSignedEcRecovered :=
  match request.from_ with
  | none => (.error (.signError .noAccount), [])
  | some from_ =>
    -- set nonce if not already set before
    let nonceRes : Except EthApiError (Option Nat) :=
      match request.nonce with
      | some nonce => .ok (some nonce)
      | none =>
          match w.get_transaction_count from_
              (some (BlockId.number BlockNumberOrTag.pending)) with
          | .ok nonce => .ok (some nonce)
          | .error e => .error e
    match nonceRes with
    | .error e => (.error e, [])
    | .ok nonce' =>
      let request := { request with nonce := nonce' }
      let chain_id := w.chain_id
      let gas_price := request.gas_price.getD 0
      let max_fee_per_gas := request.max_fee_per_gas.getD 0
      match w.estimate_gas_at
          { from_ := some from_
            to_ := request.to_
            gas := request.gas
            gas_price := some gas_price
            max_fee_per_gas := some max_fee_per_gas
            value := request.value
            input := request.input
            nonce := request.nonce
            chain_id := some chain_id
            access_list := request.access_list
            max_priority_fee_per_gas := some max_fee_per_gas
            transaction_type := none
            blob_versioned_hashes := none
            max_fee_per_blob_gas := none }
          (BlockId.number BlockNumberOrTag.pending) with
      | .error e => (.error e, [])
      | .ok estimated_gas =>
        let gas_limit := estimated_gas
        match w.into_typed_request request with
        | none => (.error .conflictingFeeFieldsInRequest, [])
        | some typed =>
          let transaction :=
            match typed with
            | .legacy m => TypedTransactionRequest.legacy
                { m with chain_id := some chain_id, gas_limit := gas_limit,
                         gas_price := gas_price }
            | .eip2930 m => TypedTransactionRequest.eip2930
                { m with chain_id := some chain_id, gas_limit := gas_limit,
                         gas_price := gas_price }
            | .eip1559 m => TypedTransactionRequest.eip1559
                { m with chain_id := some chain_id, gas_limit := gas_limit,
                         max_fee_per_gas := max_fee_per_gas }
            | .eip4844 m => TypedTransactionRequest.eip4844
                { m with chain_id := some chain_id, gas_limit := gas_limit,
                         max_fee_per_gas := max_fee_per_gas }
          match sign_request signers from_ transaction with
          | .error e => (.error e, [])
          | .ok signed_tx =>
            -- into_ecrecovered
            match signed_tx.signer with
            | none => (.error .invalidTransactionSignature, [])
            | some s =>
              let recovered : TransactionSignedEcRecovered := ⟨signed_tx, s⟩
              -- submit the transaction to the pool with a Local origin
              match w.pool_add_transaction recovered with
              | .ok hash => (.ok hash, [recovered])
              | .error e => (.error e, [recovered])

/-- The log indices the receipt builder assigns across one block: chunk
`i` lists the `log_index` values of the receipt built for position `i`
from the block's full ordered receipt list. -/
def blockLogIndexChunks (txOf : Nat → TransactionSigned)
    (metaOf : Nat → TransactionMeta) (all_receipts : List Receipt) :
    List (List (Option Nat)) :=
  all_receipts.enum.map fun p =>
    match build_transaction_receipt_with_block_receipts (txOf p.1) (metaOf p.1)
        p.2 all_receipts with
    | .ok r => r.logs.map fun l => l.log_index
    | .error _ => []

/-- Consecutive chunks of naturals: `chunksFrom off [l0, l1, ...]` is
`[[off, ..., off+l0-1], [off+l0, ...], ...]`. -/
def chunksFrom : Nat → List Nat → List (List Nat)
  | _, [] => []
  | off, l :: ls => (List.range l).map (fun k => off + k) :: chunksFrom (off + l) ls

/-! Concrete fixtures used by witness theorems. -/

def egTx : TransactionSigned :=
  { hash := 100, kind := .Call (.base 7), nonce := 3, tx_type := 2,
    signer := some (.base 5), effective_gas_price := fun _ => 42 }

def egTxCreate : TransactionSigned :=
  { egTx with kind := .Create }

def egLog (k : Nat) : PrimLog :=
  { address := .base 9, topics := [k], data := k }

def egReceipt0 : Receipt :=
  { success := true, cumulative_gas_used := 21000, logs := [egLog 0, egLog 1] }

def egReceipt1 : Receipt :=
  { success := true, cumulative_gas_used := 63000, logs := [egLog 2] }

def egMeta (i : Nat) : TransactionMeta :=
  { tx_hash := 200 + i, index := i, block_hash := 300, block_number := 12,
    base_fee := some 7 }

def egRecTx (i : Nat) : TransactionSignedEcRecovered :=
  ⟨{ hash := 500 + i, kind := .Call (.base 7), nonce := i, tx_type := 2,
     signer := some (.base 5), effective_gas_price := fun _ => 42 }, .base 5⟩

def egBlock : SealedBlockWithSenders :=
  { hash := 1010, parent_hash := 1009, number := 10, base_fee_per_gas := some 7,
    body := [egRecTx 0, egRecTx 1, egRecTx 2] }

def egCfg : CfgEnv := { chain_id := 1, spec_id := 17 }

def egBlockEnv : BlockEnv :=
  { number := 10, coinbase := .base 0, timestamp := 1700000000,
    gas_limit := 30000000, basefee := 7 }

/-- A concrete deterministic EVM whose results depend on the number of
previously committed diffs, so sequential-commit effects are observable. -/
def egSem : EvmSem :=
  { run := fun db env =>
      { result :=
          { success := true, gasUsed := 21000 + env.tx.tx.tx.nonce,
            output := db.committed.length },
        state := [(Address.base env.tx.tx.tx.nonce, db.committed.length)] },
    traceOf := fun config db _ => config + db.committed.length }

def egNode : Node :=
  { block_hash_for_id := fun b =>
      match b with
      | .hash h _ => some h
      | .number (.number k) => if k = 10 then some 1010 else none
      | .number .latest => some 1010
      | _ => none,
    cache_get_evm_env := fun _ => (egCfg, egBlockEnv),
    pending_block_env_and_cfg := .ok (egCfg, egBlockEnv, .actualPending 99),
    block_with_senders_of := fun b =>
      match b with
      | .hash h _ => if h = 1010 then some egBlock else none
      | .number (.number k) => if k = 10 then some egBlock else none
      | _ => none,
    state_at := fun _ => .ok 3,
    transaction_by_hash_with_meta := fun h =>
      if h = 100 then some (egTx, egMeta 1) else none,
    pool_get := fun h =>
      if h = 100 ∨ h = 101 then some ⟨egTx, .base 5⟩ else none }

def egTypedReq : TypedTransactionRequest :=
  .eip1559 { chain_id := none, gas_limit := 0, gas_price := 0,
             max_fee_per_gas := 0, payload := 9 }

def egSendWorld : SendWorld :=
  { get_transaction_count := fun _ _ => .ok 0,
    chain_id := 1,
    estimate_gas_at := fun _ _ => .ok 21000,
    into_typed_request := fun _ => some egTypedReq,
    pool_add_transaction := fun tx => .ok tx.tx.hash }

/-- A registered signer that claims no account. -/
def egNoMatchSigner : Signer :=
  { is_signer_for := fun _ => false,
    sign_transaction := fun _ _ => .error .couldNotSign }

def egRequest : TransactionRequest :=
  { from_ := some (.base 1), to_ := some (.base 7), gas_price := some 10,
    max_fee_per_gas := none, gas := none, value := some 5, input := 0,
    nonce := some 0, access_list := none }

/-! ## Theorems -/

/-- C1: a receipt built by the receipt builder for the transaction at
position `i`, together with the full ordered list of the block's
receipts, has `gas_used` equal to its own `cumulative_gas_used` when
`i = 0`, and `cumulative_gas_used` minus the cumulative gas of the
sibling receipt at position `i - 1` when `i > 0`. -/
theorem receipt_gas_used_correct (transaction : TransactionSigned)
    (meta : TransactionMeta) (receipt : Receipt) (all_receipts : List Receipt)
    (s : Address) (hs : transaction.signer = some s) :
    ∃ r, build_transaction_receipt_with_block_receipts transaction meta receipt
        all_receipts = .ok r ∧
      (meta.index = 0 → r.gas_used = some receipt.cumulative_gas_used) ∧
      (∀ prev, 0 < meta.index → all_receipts.get? (meta.index - 1) = some prev →
        r.gas_used = some (receipt.cumulative_gas_used - prev.cumulative_gas_used)) := by
  unfold build_transaction_receipt_with_block_receipts
  rw [hs]
  refine ⟨_, rfl, ?_, ?_⟩
  · intro h0
    cases transaction.kind <;> simp [h0]
  · intro prev hpos hget
    have hne : ¬ meta.index = 0 := Nat.pos_iff_ne_zero.mp hpos
    rw [List.get?_eq_getElem?] at hget
    cases transaction.kind <;> simp [hne, hget]

/-- C1 witness. -/
theorem receipt_gas_used_correct_witness :
    egTx.signer = some (.base 5) ∧
    ∃ r, build_transaction_receipt_with_block_receipts egTx (egMeta 1)
        egReceipt1 [egReceipt0, egReceipt1] = .ok r ∧
      ((egMeta 1).index = 0 → r.gas_used = some egReceipt1.cumulative_gas_used) ∧
      (∀ prev, 0 < (egMeta 1).index →
        [egReceipt0, egReceipt1].get? ((egMeta 1).index - 1) = some prev →
        r.gas_used = some (egReceipt1.cumulative_gas_used - prev.cumulative_gas_used)) :=
  ⟨rfl, receipt_gas_used_correct egTx (egMeta 1) egReceipt1
    [egReceipt0, egReceipt1] (.base 5) rfl⟩

/-- C8: the built receipt's `contract_address` is the address derived from
the recovered sender and the transaction nonce exactly when the
transaction kind is contract-creation (with `to` absent); otherwise
`contract_address` is absent and `to` is the destination address. -/
theorem receipt_contract_address_correct (transaction : TransactionSigned)
    (meta : TransactionMeta) (receipt : Receipt) (all_receipts : List Receipt)
    (s : Address) (hs : transaction.signer = some s) :
    ∃ r, build_transaction_receipt_with_block_receipts transaction meta receipt
        all_receipts = .ok r ∧
      (transaction.kind = .Create →
        r.contract_address = some (Address.create s transaction.nonce) ∧
        r.to_ = none) ∧
      (∀ addr, transaction.kind = .Call addr →
        r.contract_address = none ∧ r.to_ = some addr) := by
  unfold build_transaction_receipt_with_block_receipts
  rw [hs]
  refine ⟨_, rfl, ?_, ?_⟩
  · intro hk
    rw [hk]
    simp
  · intro addr hk
    rw [hk]
    simp

/-- C8 witness. -/
theorem receipt_contract_address_correct_witness :
    egTxCreate.signer = some (.base 5) ∧
    ∃ r, build_transaction_receipt_with_block_receipts egTxCreate (egMeta 0)
        egReceipt0 [egReceipt0, egReceipt1] = .ok r ∧
      (egTxCreate.kind = .Create →
        r.contract_address = some (Address.create (.base 5) egTxCreate.nonce) ∧
        r.to_ = none) ∧
      (∀ addr, egTxCreate.kind = .Call addr →
        r.contract_address = none ∧ r.to_ = some addr) :=
  ⟨rfl, receipt_contract_address_correct egTxCreate (egMeta 0) egReceipt0
    [egReceipt0, egReceipt1] (.base 5) rfl⟩

/-- C10: when the transaction's position is positive but the supplied
receipt list has no entry at position `index - 1`, the builder still
succeeds, returning `gas_used = 0` (the default) while
`cumulative_gas_used` is the transaction's own receipt value. -/
theorem receipt_missing_sibling_defaults (transaction : TransactionSigned)
    (meta : TransactionMeta) (receipt : Receipt) (all_receipts : List Receipt)
    (s : Address) (hs : transaction.signer = some s)
    (hpos : 0 < meta.index)
    (hmiss : all_receipts.get? (meta.index - 1) = none) :
    ∃ r, build_transaction_receipt_with_block_receipts transaction meta receipt
        all_receipts = .ok r ∧
      r.gas_used = some 0 ∧
      r.cumulative_gas_used = receipt.cumulative_gas_used := by
  unfold build_transaction_receipt_with_block_receipts
  rw [hs]
  refine ⟨_, rfl, ?_, ?_⟩
  · have hne : ¬ meta.index = 0 := Nat.pos_iff_ne_zero.mp hpos
    rw [List.get?_eq_getElem?] at hmiss
    cases transaction.kind <;> simp [hne, hmiss]
  · cases transaction.kind <;> simp

lemma foldl_add_length (l : List Receipt) (a : Nat) :
    l.foldl (fun acc r => acc + r.logs.length) a =
      a + (l.map fun r => r.logs.length).sum := by
  induction l generalizing a with
  | nil => simp
  | cons r l ih => simp [ih, Nat.add_assoc]

lemma map_enumFrom_fstfun {α β : Type} (g : Nat → β) :
    ∀ (l : List α) (n : Nat),
      (List.enumFrom n l).map (fun p => g p.1) = (List.range' n l.length).map g
  | [], _ => rfl
  | a :: l, n => by
      simp only [List.enumFrom, List.map_cons, List.length_cons, List.range',
        map_enumFrom_fstfun g l (n + 1)]

lemma map_enum_fstfun {α β : Type} (g : Nat → β) (l : List α) :
    l.enum.map (fun p => g p.1) = (List.range l.length).map g := by
  rw [List.enum, map_enumFrom_fstfun, List.range_eq_range']

/-- The logs of a built receipt: as many as in the execution receipt, and
the k-th carries log index `num_logs + k` where `num_logs` counts the
logs of the sibling receipts at positions before `meta.index`. -/
lemma build_logs_map (transaction : TransactionSigned) (meta : TransactionMeta)
    (receipt : Receipt) (all_receipts : List Receipt) (s : Address)
    (hs : transaction.signer = some s) :
    ∃ r, build_transaction_receipt_with_block_receipts transaction meta receipt
        all_receipts = .ok r ∧
      (r.logs.map fun l => l.log_index) =
        (List.range receipt.logs.length).map
          (fun k =>
            some (((all_receipts.take meta.index).map
              fun rc => rc.logs.length).sum + k)) := by
  unfold build_transaction_receipt_with_block_receipts
  rw [hs]
  refine ⟨_, rfl, ?_⟩
  cases transaction.kind <;>
  · simp only [List.map_map, foldl_add_length, Nat.zero_add]
    exact map_enum_fstfun
      (fun k =>
        some (((all_receipts.take meta.index).map fun rc => rc.logs.length).sum + k))
      receipt.logs

lemma chunksFrom_flatten : ∀ (ls : List Nat) (off : Nat),
    (chunksFrom off ls).flatten = List.range' off ls.sum
  | [], off => by simp [chunksFrom]
  | l :: ls, off => by
      simp only [chunksFrom, List.flatten_cons, chunksFrom_flatten ls (off + l),
        List.sum_cons]
      rw [← List.range'_eq_map_range, Nat.add_comm l ls.sum]
      simpa using List.range'_append off l ls.sum 1

lemma blockChunks_aux (txOf : Nat → TransactionSigned)
    (metaOf : Nat → TransactionMeta) (sOf : Nat → Address)
    (all_receipts : List Receipt)
    (hsig : ∀ i, (txOf i).signer = some (sOf i))
    (hidx : ∀ i, (metaOf i).index = i) :
    ∀ (suf pre : List Receipt), all_receipts = pre ++ suf →
      ((List.enumFrom pre.length suf).map fun p =>
        match build_transaction_receipt_with_block_receipts (txOf p.1)
            (metaOf p.1) p.2 all_receipts with
        | .ok r => r.logs.map fun l => l.log_index
        | .error _ => []) =
      (chunksFrom ((pre.map fun rc => rc.logs.length).sum)
        (suf.map fun rc => rc.logs.length)).map (List.map some)
  | [], pre, _ => by simp [chunksFrom]
  | rcpt :: suf', pre, heq => by
      obtain ⟨r, hr, hmap⟩ := build_logs_map (txOf pre.length) (metaOf pre.length)
        rcpt all_receipts (sOf pre.length) (hsig pre.length)
      have htake : all_receipts.take ((metaOf pre.length).index) = pre := by
        rw [hidx, heq, List.take_left]
      rw [htake] at hmap
      have htail := blockChunks_aux txOf metaOf sOf all_receipts hsig hidx suf'
        (pre ++ [rcpt]) (by rw [heq]; simp)
      simp only [List.length_append, List.length_cons, List.length_nil,
        Nat.zero_add, List.map_append, List.map_cons, List.map_nil,
        List.sum_append, List.sum_cons, List.sum_nil, Nat.add_zero] at htail
      simp only [List.enumFrom, List.map_cons, hr, List.map_map, chunksFrom]
      rw [hmap, htail]
      simp [Function.comp]

/-- C9: the k-th log of the receipt built at position `i` from the full
ordered receipt list gets log index `(number of logs in receipts 0..i-1) + k`;
consequently the log indices across all receipts of the block built this
way are exactly `0, 1, 2, ...` — strictly increasing and contiguous from 0. -/
theorem receipt_log_index_contiguous (all_receipts : List Receipt)
    (txOf : Nat → TransactionSigned) (metaOf : Nat → TransactionMeta)
    (sOf : Nat → Address)
    (hsig : ∀ i, (txOf i).signer = some (sOf i))
    (hidx : ∀ i, (metaOf i).index = i) :
    (∀ i rcpt, all_receipts.get? i = some rcpt →
      ∃ r, build_transaction_receipt_with_block_receipts (txOf i) (metaOf i)
          rcpt all_receipts = .ok r ∧
        ∀ k, k < rcpt.logs.length →
          ∃ lg, r.logs.get? k = some lg ∧
            lg.log_index =
              some (((all_receipts.take i).map fun rc => rc.logs.length).sum + k)) ∧
    (blockLogIndexChunks txOf metaOf all_receipts).flatten =
      (List.range ((all_receipts.map fun rc => rc.logs.length).sum)).map some := by
  constructor
  · intro i rcpt hget
    obtain ⟨r, hr, hmap⟩ := build_logs_map (txOf i) (metaOf i) rcpt all_receipts
      (sOf i) (hsig i)
    rw [hidx] at hmap
    refine ⟨r, hr, ?_⟩
    intro k hk
    have h1 := congrArg (fun l => l[k]?) hmap
    simp only [List.getElem?_map] at h1
    rw [List.getElem?_range hk] at h1
    cases hg : r.logs[k]? with
    | none => rw [hg] at h1; simp at h1
    | some lg =>
        rw [hg] at h1
        simp only [Option.map_some'] at h1
        refine ⟨lg, ?_, by simpa using h1⟩
        rw [List.get?_eq_getElem?, hg]
  · have haux := blockChunks_aux txOf metaOf sOf all_receipts hsig hidx
      all_receipts [] (by simp)
    simp only [List.length_nil, List.map_nil, List.sum_nil] at haux
    rw [blockLogIndexChunks]
    rw [show all_receipts.enum = List.enumFrom 0 all_receipts from rfl, haux,
      ← List.map_flatten, chunksFrom_flatten, ← List.range_eq_range']

/-- C9 witness. -/
theorem receipt_log_index_contiguous_witness :
    (∀ i : Nat, ((fun _ : Nat => egTx) i).signer =
      some ((fun _ : Nat => Address.base 5) i)) ∧
    (∀ i : Nat, (egMeta i).index = i) ∧
    ((∀ i rcpt, ([egReceipt0, egReceipt1] : List Receipt).get? i = some rcpt →
      ∃ r, build_transaction_receipt_with_block_receipts ((fun _ => egTx) i)
          (egMeta i) rcpt [egReceipt0, egReceipt1] = .ok r ∧
        ∀ k, k < rcpt.logs.length →
          ∃ lg, r.logs.get? k = some lg ∧
            lg.log_index =
              some ((([egReceipt0, egReceipt1].take i).map
                fun rc => rc.logs.length).sum + k)) ∧
    (blockLogIndexChunks (fun _ => egTx) egMeta [egReceipt0, egReceipt1]).flatten =
      (List.range (([egReceipt0, egReceipt1].map
        fun rc => rc.logs.length).sum)).map some) :=
  ⟨fun _ => rfl, fun _ => rfl,
    receipt_log_index_contiguous [egReceipt0, egReceipt1] (fun _ => egTx) egMeta
      (fun _ => Address.base 5) (fun _ => rfl) (fun _ => rfl)⟩

/-- C10 witness. -/
theorem receipt_missing_sibling_defaults_witness :
    egTx.signer = some (.base 5) ∧ 0 < (egMeta 1).index ∧
    ([] : List Receipt).get? ((egMeta 1).index - 1) = none ∧
    ∃ r, build_transaction_receipt_with_block_receipts egTx (egMeta 1)
        egReceipt1 [] = .ok r ∧
      r.gas_used = some 0 ∧
      r.cumulative_gas_used = egReceipt1.cumulative_gas_used :=
  ⟨rfl, by decide, rfl,
    receipt_missing_sibling_defaults egTx (egMeta 1) egReceipt1 [] (.base 5)
      rfl (by decide) rfl⟩

/-- C2: resolving the execution environment for the pending block
reference never queries the persisted-block environment cache (no key is
looked up), and whenever resolution succeeds, the resolved identity it
returns has no concrete block hash. -/
theorem evm_env_at_pending_isolated (n : Node) (at_ : BlockId)
    (hp : at_.is_pending = true) :
    (evm_env_at n at_).2 = [] ∧
    ∀ cfg block_env rid, (evm_env_at n at_).1 = .ok (cfg, block_env, rid) →
      rid.as_block_hash = none := by
  unfold evm_env_at
  rw [hp]
  cases hpend : n.pending_block_env_and_cfg with
  | error e => exact ⟨rfl, by intro cfg benv rid h; simp at h⟩
  | ok v =>
      obtain ⟨cfg0, benv0, origin⟩ := v
      refine ⟨rfl, ?_⟩
      intro cfg benv rid h
      simp only [if_true, Except.ok.injEq, Prod.mk.injEq] at h
      obtain ⟨-, -, hrid⟩ := h
      rw [← hrid]
      rfl

/-- C2 witness. -/
theorem evm_env_at_pending_isolated_witness :
    (BlockId.number BlockNumberOrTag.pending).is_pending = true ∧
    ((evm_env_at egNode (BlockId.number BlockNumberOrTag.pending)).2 = [] ∧
    ∀ cfg block_env rid,
      (evm_env_at egNode (BlockId.number BlockNumberOrTag.pending)).1 =
        .ok (cfg, block_env, rid) →
      rid.as_block_hash = none) :=
  ⟨rfl, evm_env_at_pending_isolated egNode
    (BlockId.number BlockNumberOrTag.pending) rfl⟩

/-- C3: the transaction locator queries historical storage first; when
the hash is mined (and its sender recovers), the result is the Block
variant carrying the positional metadata and the pool is not consulted —
even if the pool also holds the hash.  Moreover, for any hash, the pool
is consulted only when the historical lookup returns nothing. -/
theorem transaction_by_hash_history_precedence (n : Node) (hash : B256)
    (tx : TransactionSigned) (meta : TransactionMeta) (s : Address)
    (hm : n.transaction_by_hash_with_meta hash = some (tx, meta))
    (hs : tx.signer = some s) :
    transaction_by_hash n hash =
      (.ok (some (TransactionSource.block ⟨tx, s⟩ meta.index meta.block_hash
        meta.block_number meta.base_fee)), false) ∧
    ∀ h', (transaction_by_hash n h').2 = true →
      n.transaction_by_hash_with_meta h' = none := by
  constructor
  · simp [transaction_by_hash, hm, hs]
  · intro h' hpool
    unfold transaction_by_hash at hpool
    cases hm' : n.transaction_by_hash_with_meta h' with
    | none => rfl
    | some p =>
        obtain ⟨tx', meta'⟩ := p
        rw [hm'] at hpool
        cases hs' : tx'.signer with
        | none => simp [hs'] at hpool
        | some s' => simp [hs'] at hpool

lemma traceLoopUntil_ok {R : Type} (sem : EvmSem) (cfg : CfgEnv)
    (block_env : BlockEnv) (config : TracingInspectorConfig)
    (g : TransactionInfo → Trace → ExecutionResult → StateDiff → CacheDB → R) :
    ∀ (txs : List (TransactionInfo × TxEnv)) (db : CacheDB),
      traceLoopUntil sem cfg block_env config
        (fun a b c d e => .ok (g a b c d e)) txs db =
      .ok (pureTraceLoop sem cfg block_env config g txs db)
  | [], _ => rfl
  | (info, tx) :: rest, db => by
      simp only [traceLoopUntil, pureTraceLoop]
      rw [traceLoopUntil_ok sem cfg block_env config g rest]

lemma pureTraceLoop_get? {R : Type} (sem : EvmSem) (cfg : CfgEnv)
    (block_env : BlockEnv) (config : TracingInspectorConfig)
    (g : TransactionInfo → Trace → ExecutionResult → StateDiff → CacheDB → R) :
    ∀ (txs : List (TransactionInfo × TxEnv)) (db : CacheDB) (i : Nat),
      (pureTraceLoop sem cfg block_env config g txs db).get? i =
        (txs.get? i).map fun p =>
          let dbi := specLeftFoldOverlay sem cfg block_env db
            ((txs.take i).map Prod.snd)
          let env : Env := { cfg := cfg, block := block_env, tx := p.2 }
          g p.1 (sem.traceOf config dbi env) (sem.run dbi env).result
            (sem.run dbi env).state dbi
  | [], _, _ => by simp [pureTraceLoop]
  | (info, tx) :: rest, db, 0 => by
      simp [pureTraceLoop, specLeftFoldOverlay]
  | (info, tx) :: [], db, i + 1 => by
      simp [pureTraceLoop]
  | (info, tx) :: q :: rest', db, i + 1 =>
      pureTraceLoop_get? sem cfg block_env config g (q :: rest')
        (db.commit
          (sem.run db { cfg := cfg, block := block_env, tx := tx }).state) i

lemma pureTraceLoop_info (sem : EvmSem) (cfg : CfgEnv) (block_env : BlockEnv)
    (config : TracingInspectorConfig) :
    ∀ (txs : List (TransactionInfo × TxEnv)) (db : CacheDB),
      pureTraceLoop sem cfg block_env config (fun info _ _ _ _ => info) txs db =
        txs.map Prod.fst
  | [], _ => rfl
  | (info, tx) :: rest, db => by
      simp only [pureTraceLoop, List.map_cons]
      rw [pureTraceLoop_info sem cfg block_env config rest]

/-- C3 witness: hash 100 is both mined and in the pool of `egNode`; the
locator returns the Block variant without consulting the pool. -/
theorem transaction_by_hash_history_precedence_witness :
    egNode.transaction_by_hash_with_meta 100 = some (egTx, egMeta 1) ∧
    egTx.signer = some (.base 5) ∧
    (egNode.pool_get 100).isSome = true ∧
    (transaction_by_hash egNode 100 =
      (.ok (some (TransactionSource.block ⟨egTx, .base 5⟩ (egMeta 1).index
        (egMeta 1).block_hash (egMeta 1).block_number (egMeta 1).base_fee)),
       false) ∧
    ∀ h', (transaction_by_hash egNode h').2 = true →
      egNode.transaction_by_hash_with_meta h' = none) :=
  ⟨rfl, rfl, rfl,
    transaction_by_hash_history_precedence egNode 100 egTx (egMeta 1)
      (.base 5) rfl rfl⟩

/-- C4: the execution result (and state diff) the replay engine observes
for the transaction at position `i` equals the reference strict left-fold
execution of the spec: execute the prepared transactions before `i` in
order into one shared overlay, committing each diff before the next
executes, then execute transaction `i` against that overlay. -/
theorem trace_block_replay_left_fold (n : Node) (sem : EvmSem)
    (block_id : BlockId) (highest_index : Option Nat)
    (config : TracingInspectorConfig) (cfg : CfgEnv) (block_env : BlockEnv)
    (rid : BlockId) (sp : Nat) (block : SealedBlockWithSenders)
    (henv : (evm_env_at n block_id).1 = .ok (cfg, block_env, rid))
    (hblock : n.block_with_senders_of block_id = some block)
    (hst : n.state_at (BlockId.hash block.parent_hash none) = .ok sp) :
    ∃ rs, trace_block_until n sem block_id highest_index config
        (fun _ _ r s _ => .ok ((r, s) : ExecutionResult × StateDiff)) =
        .ok (some rs) ∧
      ∀ i, rs.get? i =
        (specRefResult sem cfg block_env { provider := sp, committed := [] }
          ((preparedTransactions block block_env highest_index).map Prod.snd)
          i).map (fun x => (x.result, x.state)) := by
  unfold trace_block_until
  simp only [henv, hblock, hst]
  rw [traceLoopUntil_ok sem cfg block_env config (fun _ _ r s _ => (r, s))]
  refine ⟨_, rfl, ?_⟩
  intro i
  rw [pureTraceLoop_get?]
  unfold specRefResult
  simp only [List.get?_eq_getElem?, List.getElem?_map, Option.map_map,
    ← List.map_take]
  cases (preparedTransactions block block_env highest_index)[i]? <;> rfl

/-- C4 witness. -/
theorem trace_block_replay_left_fold_witness :
    (evm_env_at egNode (BlockId.number (BlockNumberOrTag.number 10))).1 =
      .ok (egCfg, egBlockEnv, BlockId.hash 1010 none) ∧
    egNode.block_with_senders_of (BlockId.number (BlockNumberOrTag.number 10)) =
      some egBlock ∧
    egNode.state_at (BlockId.hash egBlock.parent_hash none) = .ok 3 ∧
    ∃ rs, trace_block_until egNode egSem
        (BlockId.number (BlockNumberOrTag.number 10)) none 0
        (fun _ _ r s _ => .ok ((r, s) : ExecutionResult × StateDiff)) =
        .ok (some rs) ∧
      ∀ i, rs.get? i =
        (specRefResult egSem egCfg egBlockEnv { provider := 3, committed := [] }
          ((preparedTransactions egBlock egBlockEnv none).map Prod.snd)
          i).map (fun x => (x.result, x.state)) :=
  ⟨rfl, rfl, rfl,
    trace_block_replay_left_fold egNode egSem
      (BlockId.number (BlockNumberOrTag.number 10)) none 0 egCfg egBlockEnv
      (BlockId.hash 1010 none) 3 egBlock rfl rfl rfl⟩

/-- C5: with limit `k` the replay engine invokes the observer exactly
`min k n` times (`n` the block length), on positions `0 .. min k n - 1`
in strictly increasing order; with no limit, on all `n` positions. -/
theorem trace_block_limit_truncation (n : Node) (sem : EvmSem)
    (block_id : BlockId) (highest_index : Option Nat)
    (config : TracingInspectorConfig) (cfg : CfgEnv) (block_env : BlockEnv)
    (rid : BlockId) (sp : Nat) (block : SealedBlockWithSenders)
    (henv : (evm_env_at n block_id).1 = .ok (cfg, block_env, rid))
    (hblock : n.block_with_senders_of block_id = some block)
    (hst : n.state_at (BlockId.hash block.parent_hash none) = .ok sp) :
    ∃ infos, trace_block_until n sem block_id highest_index config
        (fun info _ _ _ _ => .ok (info : TransactionInfo)) = .ok (some infos) ∧
      infos.map (fun info => info.index) =
        (List.range (min (highest_index.getD block.body.length)
          block.body.length)).map some := by
  unfold trace_block_until
  simp only [henv, hblock, hst]
  rw [traceLoopUntil_ok sem cfg block_env config (fun info _ _ _ _ => info)]
  refine ⟨_, rfl, ?_⟩
  rw [pureTraceLoop_info]
  unfold preparedTransactions
  have hmax : ((highest_index.map (fun highest => highest)).getD
      block.body.length) = highest_index.getD block.body.length := by
    cases highest_index <;> rfl
  rw [hmax]
  simp only [List.map_map]
  have h := map_enum_fstfun (fun k => some k)
    (block.body.take (highest_index.getD block.body.length))
  rw [List.length_take] at h
  exact h

/-- C5 witness: limit 2 on the 3-transaction block replays exactly
positions 0 and 1. -/
theorem trace_block_limit_truncation_witness :
    (evm_env_at egNode (BlockId.number (BlockNumberOrTag.number 10))).1 =
      .ok (egCfg, egBlockEnv, BlockId.hash 1010 none) ∧
    egNode.block_with_senders_of (BlockId.number (BlockNumberOrTag.number 10)) =
      some egBlock ∧
    egNode.state_at (BlockId.hash egBlock.parent_hash none) = .ok 3 ∧
    ∃ infos, trace_block_until egNode egSem
        (BlockId.number (BlockNumberOrTag.number 10)) (some 2) 0
        (fun info _ _ _ _ => .ok (info : TransactionInfo)) = .ok (some infos) ∧
      infos.map (fun info => info.index) =
        (List.range (min ((some 2).getD egBlock.body.length)
          egBlock.body.length)).map some :=
  ⟨rfl, rfl, rfl,
    trace_block_limit_truncation egNode egSem
      (BlockId.number (BlockNumberOrTag.number 10)) (some 2) 0 egCfg egBlockEnv
      (BlockId.hash 1010 none) 3 egBlock rfl rfl rfl⟩

/-- C6 counterexample: for a block reference that does not resolve to an
existing block (height 5 on `egNode`), `trace_block_until` returns the
`UnknownBlockNumber` error, not `Ok(None)` — the claim as stated is false
at this input. -/
theorem trace_block_unknown_ref_errors :
    trace_block_until egNode egSem (BlockId.number (BlockNumberOrTag.number 5))
        none 0 (fun _ _ _ _ _ => .ok (0 : Nat)) =
      .error .unknownBlockNumber ∧
    ¬ trace_block_until egNode egSem
        (BlockId.number (BlockNumberOrTag.number 5)) none 0
        (fun _ _ _ _ _ => .ok (0 : Nat)) = .ok none := by
  refine ⟨rfl, fun h => ?_⟩
  have h' := (rfl :
    trace_block_until egNode egSem (BlockId.number (BlockNumberOrTag.number 5))
      none 0 (fun _ _ _ _ _ => .ok (0 : Nat)) =
    (Except.error EthApiError.unknownBlockNumber :
      Except EthApiError (Option (List Nat)))).symm.trans h
  exact Except.noConfusion h'

/-- C6 (amended): when the environment resolves but the block fetch finds
no block, the engine returns `None` (not an error); when environment,
block and parent state all resolve, it returns `Some` of the ordered list
of observer results; but a non-pending reference that does not resolve to
an existing block hash fails with the `UnknownBlock` error instead of
returning `None`. -/
theorem trace_block_none_or_error {R : Type} (n : Node) (sem : EvmSem)
    (block_id : BlockId) (highest_index : Option Nat)
    (config : TracingInspectorConfig)
    (g : TransactionInfo → Trace → ExecutionResult → StateDiff → CacheDB → R) :
    (∀ cfg block_env rid,
      (evm_env_at n block_id).1 = .ok (cfg, block_env, rid) →
      n.block_with_senders_of block_id = none →
      trace_block_until n sem block_id highest_index config
        (fun a b c d e => .ok (g a b c d e)) = .ok none) ∧
    (∀ cfg block_env rid block sp,
      (evm_env_at n block_id).1 = .ok (cfg, block_env, rid) →
      n.block_with_senders_of block_id = some block →
      n.state_at (BlockId.hash block.parent_hash none) = .ok sp →
      trace_block_until n sem block_id highest_index config
        (fun a b c d e => .ok (g a b c d e)) =
        .ok (some (pureTraceLoop sem cfg block_env config g
          (preparedTransactions block block_env highest_index)
          { provider := sp, committed := [] }))) ∧
    (block_id.is_pending = false →
      n.block_hash_for_id block_id = none →
      trace_block_until n sem block_id highest_index config
        (fun a b c d e => .ok (g a b c d e)) = .error .unknownBlockNumber) := by
  refine ⟨?_, ?_, ?_⟩
  · intro cfg block_env rid henv hnone
    unfold trace_block_until
    simp only [henv, hnone]
  · intro cfg block_env rid block sp henv hsome hst
    unfold trace_block_until
    simp only [henv, hsome, hst]
    rw [traceLoopUntil_ok]
  · intro hp hhash
    unfold trace_block_until evm_env_at
    simp [hp, hhash]

/-- C6 (amended) witness: on `egNode`, hash 999 resolves an environment
but no block (gives `None`); height 10 resolves fully (gives `Some`);
height 5 does not resolve (gives the error). -/
theorem trace_block_none_or_error_witness :
    ((evm_env_at egNode (BlockId.hash 999 none)).1 =
        .ok (egCfg, egBlockEnv, BlockId.hash 999 none) ∧
      egNode.block_with_senders_of (BlockId.hash 999 none) = none ∧
      trace_block_until egNode egSem (BlockId.hash 999 none) none 0
        (fun a b c d e =>
          .ok ((fun _ _ _ _ _ => (0 : Nat)) a b c d e)) = .ok none) ∧
    ((evm_env_at egNode (BlockId.number (BlockNumberOrTag.number 10))).1 =
        .ok (egCfg, egBlockEnv, BlockId.hash 1010 none) ∧
      egNode.block_with_senders_of
        (BlockId.number (BlockNumberOrTag.number 10)) = some egBlock ∧
      egNode.state_at (BlockId.hash egBlock.parent_hash none) = .ok 3 ∧
      trace_block_until egNode egSem
        (BlockId.number (BlockNumberOrTag.number 10)) none 0
        (fun a b c d e =>
          .ok ((fun _ _ _ _ _ => (0 : Nat)) a b c d e)) =
        .ok (some (pureTraceLoop egSem egCfg egBlockEnv 0
          (fun _ _ _ _ _ => (0 : Nat))
          (preparedTransactions egBlock egBlockEnv none)
          { provider := 3, committed := [] }))) ∧
    ((BlockId.number (BlockNumberOrTag.number 5)).is_pending = false ∧
      egNode.block_hash_for_id (BlockId.number (BlockNumberOrTag.number 5)) =
        none ∧
      trace_block_until egNode egSem
        (BlockId.number (BlockNumberOrTag.number 5)) none 0
        (fun a b c d e =>
          .ok ((fun _ _ _ _ _ => (0 : Nat)) a b c d e)) =
        .error .unknownBlockNumber) :=
  ⟨⟨rfl, rfl,
    (trace_block_none_or_error egNode egSem (BlockId.hash 999 none) none 0
      (fun _ _ _ _ _ => (0 : Nat))).1 egCfg egBlockEnv (BlockId.hash 999 none)
      rfl rfl⟩,
   ⟨rfl, rfl, rfl,
    (trace_block_none_or_error egNode egSem
      (BlockId.number (BlockNumberOrTag.number 10)) none 0
      (fun _ _ _ _ _ => (0 : Nat))).2.1 egCfg egBlockEnv
      (BlockId.hash 1010 none) egBlock 3 rfl rfl rfl⟩,
   ⟨rfl, rfl,
    (trace_block_none_or_error egNode egSem
      (BlockId.number (BlockNumberOrTag.number 5)) none 0
      (fun _ _ _ _ _ => (0 : Nat))).2.2 rfl rfl⟩⟩

lemma sign_request_no_match (from_ : Address)
    (request : TypedTransactionRequest) :
    ∀ signers : List Signer,
      (∀ s ∈ signers, s.is_signer_for from_ = false) →
      sign_request signers from_ request = .error .invalidTransactionSignature
  | [], _ => rfl
  | s :: rest, h => by
      have hs : s.is_signer_for from_ = false := h s (List.mem_cons_self s rest)
      simp only [sign_request, hs, Bool.false_eq_true, if_false]
      exact sign_request_no_match from_ request rest
        (fun s' hs' => h s' (List.mem_cons_of_mem s hs'))

/-- C7 counterexample: a sender with no matching registered signer makes
`send_transaction` fail with `InvalidTransactionSignature`, which is not
the no-signer-for-account error kind (`SignError::NoAccount`); nothing is
submitted to the pool. -/
theorem send_transaction_no_signer_wrong_kind :
    send_transaction egSendWorld [egNoMatchSigner] egRequest =
      (.error .invalidTransactionSignature, []) ∧
    EthApiError.invalidTransactionSignature ≠
      EthApiError.signError SignError.noAccount :=
  ⟨rfl, by decide⟩

/-- C7 (amended): when the requested sender has no matching signer among
the registered signers (and the preliminary nonce/gas steps succeed),
`send_transaction` fails with the `InvalidTransactionSignature` error —
not a dedicated no-signer kind — and no transaction is submitted to the
pool. -/
theorem send_transaction_no_signer (w : SendWorld) (signers : List Signer)
    (request : TransactionRequest) (a : Address) (g0 : Nat)
    (typed : TypedTransactionRequest)
    (hfrom : request.from_ = some a)
    (hnosig : ∀ s ∈ signers, s.is_signer_for a = false)
    (hcnt : ∀ a' b, w.get_transaction_count a' b = .ok 0)
    (hest : ∀ c b, w.estimate_gas_at c b = .ok g0)
    (hty : ∀ r, w.into_typed_request r = some typed) :
    send_transaction w signers request =
      (.error .invalidTransactionSignature, []) := by
  have hsign : ∀ t, sign_request signers a t =
      .error .invalidTransactionSignature :=
    fun t => sign_request_no_match a t signers hnosig
  unfold send_transaction
  rw [hfrom]
  cases hn : request.nonce with
  | some n0 =>
      simp only [hn, hest, hty]
      cases typed <;> simp [hsign]
  | none =>
      simp only [hn, hcnt, hest, hty]
      cases typed <;> simp [hsign]

/-- C7 (amended) witness. -/
theorem send_transaction_no_signer_witness :
    egRequest.from_ = some (.base 1) ∧
    (∀ s ∈ [egNoMatchSigner], s.is_signer_for (.base 1) = false) ∧
    (∀ a' b, egSendWorld.get_transaction_count a' b = .ok 0) ∧
    (∀ c b, egSendWorld.estimate_gas_at c b = .ok 21000) ∧
    (∀ r, egSendWorld.into_typed_request r = some egTypedReq) ∧
    send_transaction egSendWorld [egNoMatchSigner] egRequest =
      (.error .invalidTransactionSignature, []) :=
  ⟨rfl,
   (fun s hs => by
      cases hs with
      | head => rfl
      | tail _ h => cases h),
   fun _ _ => rfl, fun _ _ => rfl, fun _ => rfl,
   send_transaction_no_signer egSendWorld [egNoMatchSigner] egRequest
     (.base 1) 21000 egTypedReq rfl
     (fun s hs => by cases hs with
       | head => rfl
       | tail _ h => cases h)
     (fun _ _ => rfl) (fun _ _ => rfl) (fun _ => rfl)⟩

end RethTx
